import Mathlib

/-!
Verification development for the n8n-workflow-builder repository.

The core under specification is the Workflow Specification Compiler
(name resolution, connection normalisation, structural validation,
default layout).  The repository sources under `src/` contain only the
compiler's caller (the `create_workflow` tool handler, which defaults
the workflow name and an absent connections sequence) and the
`/execution-stats` resource handler; the compiler itself
(`src/utils/validation.ts` / `src/services/workflowBuilder.ts`) is not
present, so it is modelled from the specification, as marked on each
definition.  The handler and the statistics computation are translated
directly from the source file.
-/

/-- Modelled from the spec (§3): an input node of a workflow spec.
`name` identifies the node, `type` and `parameters` are opaque to the
compiler; a node may already carry a 2-D layout position, which the
Layout Assigner (§4.4) leaves untouched. -/
structure NodeSpec where
  name : String
  type : String
  parameters : List (String × String)
  position : Option (Int × Int)
deriving DecidableEq, Repr

/-- Modelled from the spec (§3): an input connection, a directed
port-addressed edge between two named nodes, with optional output/input
port indices (default 0 when omitted). -/
structure ConnectionSpec where
  source : String
  target : String
  sourceOutput : Option Int
  targetInput : Option Int
deriving DecidableEq, Repr

/-- Modelled from the spec (§3): the input aggregate handed to the
compiler: a name, an ordered node sequence, a connection sequence. -/
structure WorkflowSpec where
  name : String
  nodes : List NodeSpec
  connections : List ConnectionSpec
deriving DecidableEq, Repr

/-- Which side of a connection failed to resolve. -/
inductive RefSide where
  | source
  | target
deriving DecidableEq, Repr

/-- Which port field of a connection carried an invalid index. -/
inductive PortField where
  | sourceOutput
  | targetInput
deriving DecidableEq, Repr

/-- Modelled from the spec (§7): the compiler's error taxonomy.
`unknownNodeReference` carries the connection's position in the input
sequence, the failing side and the unresolved name;
`invalidPortIndex` carries the connection's position and the offending
field. -/
inductive CompileError where
  | emptyWorkflow
  | duplicateNodeName (name : String)
  | unknownNodeReference (index : Nat) (side : RefSide) (name : String)
  | invalidPortIndex (index : Nat) (field : PortField)
deriving DecidableEq, Repr

/-- Modelled from the spec (§3): a node of the compiled workflow: the
input fields plus a stable identifier (the node's input index) and an
assigned 2-D layout position. -/
structure ResolvedNode where
  name : String
  type : String
  parameters : List (String × String)
  id : Nat
  position : Int × Int
deriving DecidableEq, Repr

/-- Modelled from the spec (§3): a compiled connection, keyed by
resolved node identifiers and carrying the (defaulted) port indices. -/
structure CompiledConnection where
  sourceId : Nat
  targetId : Nat
  sourceOutput : Nat
  targetInput : Nat
deriving DecidableEq, Repr

/-- Modelled from the spec (§3): the engine-ready compiled workflow. -/
structure CompiledWorkflow where
  name : String
  nodes : List ResolvedNode
  connections : List CompiledConnection
deriving DecidableEq, Repr

/-- Modelled from the spec (§4.1): scan the node-name sequence in input
order and report the first name that occurs again later, if any
(duplicate detection of the Name Resolver). -/
def findDup : List String → Option String
  | [] => none
  | n :: rest => if n ∈ rest then some n else findDup rest

/-- Modelled from the spec (§4.1): the Name Resolver's mapping from a
node name to its stable identifier, the index of the (first) node with
that name in input order. -/
def lookupIdx : List NodeSpec → String → Option Nat
  | [], _ => none
  | n :: rest, name =>
    if n.name = name then some 0 else (lookupIdx rest name).map (· + 1)

/-- Modelled from the spec (§4.2): normalise one optional port index:
absent means 0, a negative supplied value is rejected with
`invalidPortIndex` naming the connection and the field. -/
def resolvePort (idx : Nat) (f : PortField) : Option Int → Except CompileError Nat
  | none => Except.ok 0
  | some v => if v < 0 then Except.error (CompileError.invalidPortIndex idx f) else Except.ok v.toNat

/-- The value `resolvePort` produces when it succeeds. -/
def portVal : Option Int → Nat
  | none => 0
  | some v => v.toNat

/-- Modelled from the spec (§4.2, §4.3): normalise one connection at
position `idx`: resolve the source name, then the target name (failing
with `unknownNodeReference` on the first side that does not resolve),
then validate/default the two port indices. -/
def compileConnection (nodes : List NodeSpec) (idx : Nat) (c : ConnectionSpec) :
    Except CompileError CompiledConnection :=
  match lookupIdx nodes c.source with
  | none => Except.error (CompileError.unknownNodeReference idx RefSide.source c.source)
  | some si =>
    match lookupIdx nodes c.target with
    | none => Except.error (CompileError.unknownNodeReference idx RefSide.target c.target)
    | some ti =>
      match resolvePort idx PortField.sourceOutput c.sourceOutput with
      | Except.error e => Except.error e
      | Except.ok so =>
        match resolvePort idx PortField.targetInput c.targetInput with
        | Except.error e => Except.error e
        | Except.ok tin => Except.ok ⟨si, ti, so, tin⟩

/-- The compiled connection a valid input connection maps to: node names
replaced by their resolver indices, port indices defaulted. -/
def connOut (nodes : List NodeSpec) (c : ConnectionSpec) : CompiledConnection :=
  { sourceId := (lookupIdx nodes c.source).getD 0
  , targetId := (lookupIdx nodes c.target).getD 0
  , sourceOutput := portVal c.sourceOutput
  , targetInput := portVal c.targetInput }

/-- Modelled from the spec (§4.2, §4.5): normalise the connection
sequence in input order, starting at position `idx`, short-circuiting on
the first failure. -/
def compileConnections (nodes : List NodeSpec) : Nat → List ConnectionSpec →
    Except CompileError (List CompiledConnection)
  | _, [] => Except.ok []
  | idx, c :: rest =>
    match compileConnection nodes idx c with
    | Except.error e => Except.error e
    | Except.ok cc =>
      match compileConnections nodes (idx + 1) rest with
      | Except.error e => Except.error e
      | Except.ok ccs => Except.ok (cc :: ccs)

/-- Modelled from the spec (§4.4): the deterministic default position of
the node at sequential index `i`: a fixed horizontal stride per index. -/
def defaultPosition (i : Nat) : Int × Int := (250 * (i : Int), 300)

/-- Modelled from the spec (§4.4): assign identifiers and layout
positions to the node sequence, numbering from `i`; a node that already
carries a position keeps it. -/
def layoutNodesFrom (i : Nat) : List NodeSpec → List ResolvedNode
  | [] => []
  | n :: rest =>
    { name := n.name, type := n.type, parameters := n.parameters
    , id := i, position := n.position.getD (defaultPosition i) } :: layoutNodesFrom (i + 1) rest

/-- Modelled from the spec (§4.4): layout assignment over the whole node
sequence, identifiers starting at 0. -/
def layoutNodes (nodes : List NodeSpec) : List ResolvedNode := layoutNodesFrom 0 nodes

/-- Modelled from the spec (§4.5): the Compiler Facade.  Rejects a spec
with no nodes (`emptyWorkflow`), then detects duplicate node names
(`duplicateNodeName`), then normalises the connections in input order
(fail-fast), and on success assembles the compiled workflow with the
laid-out nodes and the compiled connections. -/
def compile (spec : WorkflowSpec) : Except CompileError CompiledWorkflow :=
  if spec.nodes.isEmpty then Except.error CompileError.emptyWorkflow
  else
    match findDup (spec.nodes.map NodeSpec.name) with
    | some n => Except.error (CompileError.duplicateNodeName n)
    | none =>
      match compileConnections spec.nodes 0 spec.connections with
      | Except.error e => Except.error e
      | Except.ok conns =>
        Except.ok { name := spec.name, nodes := layoutNodes spec.nodes, connections := conns }

/-- Arguments of the `create_workflow` tool as received from the
dispatch layer: an optional name, the node list, an optional connection
list (src/unnamed/part_001, create_workflow inputSchema). -/
structure CreateWorkflowArgs where
  name : Option String
  nodes : List NodeSpec
  connections : Option (List ConnectionSpec)
deriving DecidableEq, Repr

/-- From src/unnamed/part_001 lines 511-513: `if (!args.name) args.name
= 'New Workflow'`.  A missing name (and, by JS falsiness, the empty
string) is replaced by the default. -/
def defaultedName : Option String → String
  | none => "New Workflow"
  | some s => if s = "" then "New Workflow" else s

/-- From src/unnamed/part_001 lines 510-519: the `create_workflow`
handler defaults the name, treats an absent connections sequence as
empty (`args.connections || []`) and hands the spec to the compiler. -/
def create_workflow (args : CreateWorkflowArgs) : Except CompileError CompiledWorkflow :=
  compile { name := defaultedName args.name
          , nodes := args.nodes
          , connections := args.connections.getD [] }

/-- From src/unnamed/part_001: the fields of an execution record the
statistics computation reads. -/
structure ExecutionRecord where
  finished : Bool
  mode : String
deriving DecidableEq, Repr

/-- The statistics object of the `/execution-stats` resource (the
`avgExecutionTime` string, computed from wall-clock dates, is outside
the claims and omitted). -/
structure ExecutionStatsResult where
  total : Nat
  succeeded : Nat
  failed : Nat
  waiting : Nat
  errMsg : Option String
deriving DecidableEq, Repr

/-- From src/unnamed/part_001 lines 115-118: the statistics computed
from the fetched execution list. -/
def computeExecutionStats (data : List ExecutionRecord) : ExecutionStatsResult :=
  { total := data.length
  , succeeded := (data.filter (fun e => e.finished && e.mode ≠ "error")).length
  , failed := (data.filter (fun e => e.mode = "error")).length
  , waiting := (data.filter (fun e => !e.finished)).length
  , errMsg := none }

/-- From src/unnamed/part_001 lines 110-167: the `/execution-stats`
resource handler: on a successful fetch, the computed statistics; when
fetching throws, all-zero statistics with an error message instead of a
propagated failure. -/
def readExecutionStats (fetch : Except String (List ExecutionRecord)) : ExecutionStatsResult :=
  match fetch with
  | Except.ok executions => computeExecutionStats executions
  | Except.error _ =>
    { total := 0, succeeded := 0, failed := 0, waiting := 0
    , errMsg := some "Failed to retrieve execution statistics" }

/-- Validity of an optional port index: absent, or non-negative. -/
def portOk : Option Int → Prop
  | none => True
  | some v => 0 ≤ v

instance : (o : Option Int) → Decidable (portOk o)
  | none => isTrue trivial
  | some v => inferInstanceAs (Decidable (0 ≤ v))

/-- A connection is valid for a node list when both endpoints name a
declared node and both port indices are valid. -/
def connValid (nodes : List NodeSpec) (c : ConnectionSpec) : Prop :=
  c.source ∈ nodes.map NodeSpec.name ∧ c.target ∈ nodes.map NodeSpec.name ∧
    portOk c.sourceOutput ∧ portOk c.targetInput

instance (nodes : List NodeSpec) (c : ConnectionSpec) : Decidable (connValid nodes c) :=
  inferInstanceAs (Decidable (_ ∧ _ ∧ _ ∧ _))

/-! ### Core lemmas about the compiler components -/

theorem findDup_eq_none_iff (l : List String) : findDup l = none ↔ l.Nodup := by
  induction l with
  | nil => simp [findDup]
  | cons n rest ih =>
    by_cases h : n ∈ rest
    · simp [findDup, h]
    · simp [findDup, h, ih]

theorem findDup_count (l : List String) (n : String) (h : findDup l = some n) :
    2 ≤ l.count n := by
  induction l with
  | nil => simp [findDup] at h
  | cons m rest ih =>
    by_cases hm : m ∈ rest
    · simp only [findDup, if_pos hm] at h
      cases h
      have h1 : 0 < rest.count n := List.count_pos_iff.mpr hm
      have : (n :: rest).count n = rest.count n + 1 := by
        simp [List.count_cons]
      omega
    · simp only [findDup, if_neg hm] at h
      have h1 := ih h
      have : rest.count n ≤ (m :: rest).count n := by
        rw [List.count_cons]
        split <;> omega
      omega

theorem lookupIdx_eq_none_iff (nodes : List NodeSpec) (name : String) :
    lookupIdx nodes name = none ↔ name ∉ nodes.map NodeSpec.name := by
  induction nodes with
  | nil => simp [lookupIdx]
  | cons n rest ih =>
    by_cases h : n.name = name
    · simp [lookupIdx, h]
    · have h' : ¬ (name = n.name) := fun hh => h hh.symm
      simp [lookupIdx, h, h', ih, Option.map_eq_none']

theorem lookupIdx_isSome_of_mem (nodes : List NodeSpec) (name : String)
    (h : name ∈ nodes.map NodeSpec.name) : ∃ i, lookupIdx nodes name = some i := by
  cases hl : lookupIdx nodes name with
  | none => exact absurd h ((lookupIdx_eq_none_iff nodes name).mp hl)
  | some i => exact ⟨i, rfl⟩

theorem resolvePort_ok_of_portOk (idx : Nat) (f : PortField) (o : Option Int)
    (h : portOk o) : resolvePort idx f o = Except.ok (portVal o) := by
  cases o with
  | none => rfl
  | some v =>
    simp only [portOk] at h
    simp [resolvePort, portVal, not_lt.mpr h]

theorem resolvePort_ok_inv (idx : Nat) (f : PortField) (o : Option Int) (k : Nat)
    (h : resolvePort idx f o = Except.ok k) : k = portVal o := by
  cases o with
  | none => simp [resolvePort] at h; simp [portVal, h]
  | some v =>
    simp only [resolvePort] at h
    split at h
    · cases h
    · cases h; rfl

theorem resolvePort_error_of_neg (idx : Nat) (f : PortField) (v : Int) (hv : v < 0) :
    resolvePort idx f (some v) = Except.error (CompileError.invalidPortIndex idx f) := by
  simp [resolvePort, hv]

theorem compileConnection_ok_of_valid (nodes : List NodeSpec) (idx : Nat)
    (c : ConnectionSpec) (h : connValid nodes c) :
    compileConnection nodes idx c = Except.ok (connOut nodes c) := by
  obtain ⟨hs, ht, hso, hti⟩ := h
  obtain ⟨si, hsi⟩ := lookupIdx_isSome_of_mem nodes c.source hs
  obtain ⟨ti, hti'⟩ := lookupIdx_isSome_of_mem nodes c.target ht
  simp [compileConnection, hsi, hti', resolvePort_ok_of_portOk idx _ _ hso,
    resolvePort_ok_of_portOk idx _ _ hti, connOut]

theorem compileConnection_ok_inv (nodes : List NodeSpec) (idx : Nat)
    (c : ConnectionSpec) (cc : CompiledConnection)
    (h : compileConnection nodes idx c = Except.ok cc) : cc = connOut nodes c := by
  unfold compileConnection at h
  cases hsi : lookupIdx nodes c.source with
  | none => rw [hsi] at h; cases h
  | some si =>
    rw [hsi] at h
    cases hti : lookupIdx nodes c.target with
    | none => rw [hti] at h; cases h
    | some ti =>
      rw [hti] at h
      cases hso : resolvePort idx PortField.sourceOutput c.sourceOutput with
      | error e => rw [hso] at h; cases h
      | ok so =>
        rw [hso] at h
        cases htin : resolvePort idx PortField.targetInput c.targetInput with
        | error e => rw [htin] at h; cases h
        | ok tin =>
          rw [htin] at h
          cases h
          simp [connOut, hsi, hti, resolvePort_ok_inv _ _ _ _ hso,
            resolvePort_ok_inv _ _ _ _ htin]

theorem compileConnections_ok_of_valid (nodes : List NodeSpec) (idx : Nat)
    (l : List ConnectionSpec) (h : ∀ c ∈ l, connValid nodes c) :
    compileConnections nodes idx l = Except.ok (l.map (connOut nodes)) := by
  induction l generalizing idx with
  | nil => rfl
  | cons c rest ih =>
    have hc := h c (List.mem_cons_self c rest)
    have hrest := ih (idx + 1) (fun c' hc' => h c' (List.mem_cons_of_mem c hc'))
    simp [compileConnections, compileConnection_ok_of_valid nodes idx c hc, hrest]

theorem compileConnections_ok_inv (nodes : List NodeSpec) (idx : Nat)
    (l : List ConnectionSpec) (out : List CompiledConnection)
    (h : compileConnections nodes idx l = Except.ok out) : out = l.map (connOut nodes) := by
  induction l generalizing idx out with
  | nil => simp [compileConnections] at h; simp [h.symm]
  | cons c rest ih =>
    unfold compileConnections at h
    cases hc : compileConnection nodes idx c with
    | error e => rw [hc] at h; cases h
    | ok cc =>
      rw [hc] at h
      cases hr : compileConnections nodes (idx + 1) rest with
      | error e => rw [hr] at h; cases h
      | ok ccs =>
        rw [hr] at h
        cases h
        simp [compileConnection_ok_inv _ _ _ _ hc, ih _ _ hr]

theorem compileConnections_append_error (nodes : List NodeSpec) (idx : Nat)
    (pre : List ConnectionSpec) (c : ConnectionSpec) (post : List ConnectionSpec)
    (e : CompileError) (hpre : ∀ c' ∈ pre, connValid nodes c')
    (hc : compileConnection nodes (idx + pre.length) c = Except.error e) :
    compileConnections nodes idx (pre ++ c :: post) = Except.error e := by
  induction pre generalizing idx with
  | nil =>
    simp only [List.length_nil, Nat.add_zero] at hc
    simp [compileConnections, hc]
  | cons p pre' ih =>
    have hp := hpre p (List.mem_cons_self p pre')
    have hc' : compileConnection nodes (idx + 1 + pre'.length) c = Except.error e := by
      have : idx + 1 + pre'.length = idx + (p :: pre').length := by
        simp [List.length_cons]; omega
      rw [this]; exact hc
    have hrec := ih (idx + 1) (fun c' hm => hpre c' (List.mem_cons_of_mem p hm)) hc'
    simp [compileConnections, compileConnection_ok_of_valid nodes idx p hp, hrec]

theorem layoutNodesFrom_length (i : Nat) (ns : List NodeSpec) :
    (layoutNodesFrom i ns).length = ns.length := by
  induction ns generalizing i with
  | nil => rfl
  | cons n rest ih => simp [layoutNodesFrom, ih]

theorem layoutNodesFrom_fields (i : Nat) (ns : List NodeSpec) :
    (layoutNodesFrom i ns).map (fun r => (r.name, r.type, r.parameters)) =
      ns.map (fun n => (n.name, n.type, n.parameters)) := by
  induction ns generalizing i with
  | nil => rfl
  | cons n rest ih => simp [layoutNodesFrom, ih]

theorem layoutNodesFrom_getElem? (i : Nat) (ns : List NodeSpec) (j : Nat) :
    (layoutNodesFrom i ns)[j]? = ns[j]?.map (fun n =>
      { name := n.name, type := n.type, parameters := n.parameters
      , id := i + j, position := n.position.getD (defaultPosition (i + j)) }) := by
  induction ns generalizing i j with
  | nil => simp [layoutNodesFrom]
  | cons n rest ih =>
    cases j with
    | zero => simp [layoutNodesFrom]
    | succ j' =>
      simp only [layoutNodesFrom, List.getElem?_cons_succ, ih (i + 1) j']
      have : i + 1 + j' = i + (j' + 1) := by omega
      rw [this]

theorem compile_ok_of_valid (s : WorkflowSpec) (hne : s.nodes ≠ [])
    (hnd : (s.nodes.map NodeSpec.name).Nodup)
    (hv : ∀ c ∈ s.connections, connValid s.nodes c) :
    compile s = Except.ok { name := s.name, nodes := layoutNodes s.nodes
                          , connections := s.connections.map (connOut s.nodes) } := by
  have hempty : s.nodes.isEmpty = false := by
    cases hn : s.nodes with
    | nil => exact absurd hn hne
    | cons a l => rfl
  have hdup : findDup (s.nodes.map NodeSpec.name) = none :=
    (findDup_eq_none_iff _).mpr hnd
  simp [compile, hempty, hdup, compileConnections_ok_of_valid s.nodes 0 s.connections hv]

theorem compile_ok_inv (s : WorkflowSpec) (w : CompiledWorkflow)
    (h : compile s = Except.ok w) :
    w = { name := s.name, nodes := layoutNodes s.nodes
        , connections := s.connections.map (connOut s.nodes) } := by
  unfold compile at h
  by_cases hempty : s.nodes.isEmpty
  · rw [if_pos hempty] at h; cases h
  · rw [if_neg hempty] at h
    cases hdup : findDup (s.nodes.map NodeSpec.name) with
    | some n => rw [hdup] at h; cases h
    | none =>
      rw [hdup] at h
      cases hc : compileConnections s.nodes 0 s.connections with
      | error e => rw [hc] at h; cases h
      | ok conns =>
        rw [hc] at h
        cases h
        simp [compileConnections_ok_inv _ _ _ _ hc]

theorem compile_error_empty (s : WorkflowSpec) (h : s.nodes = []) :
    compile s = Except.error CompileError.emptyWorkflow := by
  simp [compile, h]

theorem compile_error_dup (s : WorkflowSpec) (n : String)
    (hne : s.nodes ≠ []) (h : findDup (s.nodes.map NodeSpec.name) = some n) :
    compile s = Except.error (CompileError.duplicateNodeName n) := by
  have hempty : s.nodes.isEmpty = false := by
    cases hn : s.nodes with
    | nil => exact absurd hn hne
    | cons a l => rfl
  simp [compile, hempty, h]

theorem compile_error_conn (s : WorkflowSpec) (e : CompileError)
    (hne : s.nodes ≠ []) (hnd : (s.nodes.map NodeSpec.name).Nodup)
    (h : compileConnections s.nodes 0 s.connections = Except.error e) :
    compile s = Except.error e := by
  have hempty : s.nodes.isEmpty = false := by
    cases hn : s.nodes with
    | nil => exact absurd hn hne
    | cons a l => rfl
  have hdup : findDup (s.nodes.map NodeSpec.name) = none :=
    (findDup_eq_none_iff _).mpr hnd
  simp [compile, hempty, hdup, h]

theorem compileConnection_error_source (nodes : List NodeSpec) (idx : Nat)
    (c : ConnectionSpec) (h : c.source ∉ nodes.map NodeSpec.name) :
    compileConnection nodes idx c =
      Except.error (CompileError.unknownNodeReference idx RefSide.source c.source) := by
  have hl : lookupIdx nodes c.source = none := (lookupIdx_eq_none_iff _ _).mpr h
  simp [compileConnection, hl]

theorem compileConnection_error_target (nodes : List NodeSpec) (idx : Nat)
    (c : ConnectionSpec) (hs : c.source ∈ nodes.map NodeSpec.name)
    (h : c.target ∉ nodes.map NodeSpec.name) :
    compileConnection nodes idx c =
      Except.error (CompileError.unknownNodeReference idx RefSide.target c.target) := by
  obtain ⟨si, hsi⟩ := lookupIdx_isSome_of_mem nodes c.source hs
  have hl : lookupIdx nodes c.target = none := (lookupIdx_eq_none_iff _ _).mpr h
  simp [compileConnection, hsi, hl]

theorem compileConnection_error_sourcePort (nodes : List NodeSpec) (idx : Nat)
    (c : ConnectionSpec) (hs : c.source ∈ nodes.map NodeSpec.name)
    (ht : c.target ∈ nodes.map NodeSpec.name) (v : Int)
    (hv : c.sourceOutput = some v) (hneg : v < 0) :
    compileConnection nodes idx c =
      Except.error (CompileError.invalidPortIndex idx PortField.sourceOutput) := by
  obtain ⟨si, hsi⟩ := lookupIdx_isSome_of_mem nodes c.source hs
  obtain ⟨ti, hti⟩ := lookupIdx_isSome_of_mem nodes c.target ht
  simp [compileConnection, hsi, hti, hv, resolvePort_error_of_neg idx _ v hneg]

theorem compileConnection_error_targetPort (nodes : List NodeSpec) (idx : Nat)
    (c : ConnectionSpec) (hs : c.source ∈ nodes.map NodeSpec.name)
    (ht : c.target ∈ nodes.map NodeSpec.name) (hso : portOk c.sourceOutput) (v : Int)
    (hv : c.targetInput = some v) (hneg : v < 0) :
    compileConnection nodes idx c =
      Except.error (CompileError.invalidPortIndex idx PortField.targetInput) := by
  obtain ⟨si, hsi⟩ := lookupIdx_isSome_of_mem nodes c.source hs
  obtain ⟨ti, hti⟩ := lookupIdx_isSome_of_mem nodes c.target ht
  simp [compileConnection, hsi, hti, resolvePort_ok_of_portOk idx _ _ hso, hv,
    resolvePort_error_of_neg idx _ v hneg]

theorem compile_error_at_conn (s : WorkflowSpec) (pre : List ConnectionSpec)
    (c : ConnectionSpec) (post : List ConnectionSpec) (e : CompileError)
    (hsplit : s.connections = pre ++ c :: post)
    (hne : s.nodes ≠ []) (hnd : (s.nodes.map NodeSpec.name).Nodup)
    (hpre : ∀ c' ∈ pre, connValid s.nodes c')
    (hc : compileConnection s.nodes pre.length c = Except.error e) :
    compile s = Except.error e := by
  apply compile_error_conn s e hne hnd
  rw [hsplit]
  apply compileConnections_append_error s.nodes 0 pre c post e hpre
  simpa using hc

/-! ### Claim theorems -/

/-- C1 counterexample: the claim as stated fails on the code model: the
spec with no nodes has pairwise-distinct names and no dangling
references, yet compilation is rejected with `emptyWorkflow`; likewise a
spec whose only connection carries a negative supplied port index is
rejected with `invalidPortIndex`. -/
theorem c1_counterexample :
    compile { name := "W", nodes := [], connections := [] } =
      Except.error CompileError.emptyWorkflow ∧
    compile { name := "W"
            , nodes := [⟨"A", "x", [], none⟩]
            , connections := [⟨"A", "A", some (-1), none⟩] } =
      Except.error (CompileError.invalidPortIndex 0 PortField.sourceOutput) := by
  constructor <;> rfl

/-- C1 (amended): for every WorkflowSpec with at least one node, pairwise
distinct node names, connections all referencing declared node names and
all supplied port indices non-negative, compile succeeds, and the result
has exactly one ResolvedNode per input NodeSpec and exactly one
CompiledConnection per input ConnectionSpec, both sequences in input
order (nodes keep their name/type/parameters at the same index; each
connection maps to `connOut` of the input connection at the same
index). -/
theorem c1_valid_spec_compiles (s : WorkflowSpec) (hne : s.nodes ≠ [])
    (hnd : (s.nodes.map NodeSpec.name).Nodup)
    (hv : ∀ c ∈ s.connections, connValid s.nodes c) :
    compile s = Except.ok { name := s.name, nodes := layoutNodes s.nodes
                          , connections := s.connections.map (connOut s.nodes) } ∧
    (layoutNodes s.nodes).length = s.nodes.length ∧
    (s.connections.map (connOut s.nodes)).length = s.connections.length ∧
    (layoutNodes s.nodes).map (fun r => (r.name, r.type, r.parameters)) =
      s.nodes.map (fun n => (n.name, n.type, n.parameters)) :=
  ⟨compile_ok_of_valid s hne hnd hv, layoutNodesFrom_length 0 s.nodes,
    List.length_map _ _, layoutNodesFrom_fields 0 s.nodes⟩

/-- Concrete input for the C1 witness (spec §8 Example 1). -/
def c1ex : WorkflowSpec :=
  { name := "W"
  , nodes := [⟨"A", "start", [], none⟩, ⟨"B", "end", [], none⟩]
  , connections := [⟨"A", "B", none, none⟩] }

/-- C1 witness: the amended theorem applied to Example 1 (two nodes, one
connection). -/
theorem c1_witness :
    c1ex.nodes ≠ [] ∧ (c1ex.nodes.map NodeSpec.name).Nodup ∧
    (∀ c ∈ c1ex.connections, connValid c1ex.nodes c) ∧
    compile c1ex = Except.ok { name := c1ex.name, nodes := layoutNodes c1ex.nodes
                             , connections := c1ex.connections.map (connOut c1ex.nodes) } :=
  ⟨by decide, by decide, by decide,
    (c1_valid_spec_compiles c1ex (by decide) (by decide) (by decide)).1⟩

/-- C2: for every WorkflowSpec containing two nodes with the same name,
compile fails with `duplicateNodeName` carrying a name that really
occurs at least twice, and with no other error kind (the error equation
pins the result). -/
theorem c2_duplicate_name (s : WorkflowSpec)
    (hdup : ¬ (s.nodes.map NodeSpec.name).Nodup) :
    ∃ n, compile s = Except.error (CompileError.duplicateNodeName n) ∧
      2 ≤ (s.nodes.map NodeSpec.name).count n := by
  have hne : s.nodes ≠ [] := by
    intro h
    rw [h] at hdup
    simp at hdup
  cases hfd : findDup (s.nodes.map NodeSpec.name) with
  | none => exact absurd ((findDup_eq_none_iff _).mp hfd) hdup
  | some n => exact ⟨n, compile_error_dup s n hne hfd, findDup_count _ n hfd⟩

/-- Concrete input for the C2 witness (spec §8 Example 2). -/
def c2ex : WorkflowSpec :=
  { name := "W"
  , nodes := [⟨"A", "x", [], none⟩, ⟨"A", "y", [], none⟩]
  , connections := [] }

/-- C2 witness: Example 2 (two nodes named "A") is rejected with
`duplicateNodeName`. -/
theorem c2_witness :
    ¬ ((c2ex.nodes.map NodeSpec.name).Nodup) ∧
    (∃ n, compile c2ex = Except.error (CompileError.duplicateNodeName n) ∧
      2 ≤ (c2ex.nodes.map NodeSpec.name).count n) :=
  ⟨by decide, c2_duplicate_name c2ex (by decide)⟩

/-- C3: for a connection at position `pre.length` of the input sequence
whose source (resp. target) does not name a declared node, in a spec
with nonempty nodes, distinct names and all earlier connections valid
(fail-fast reaches this connection), compile fails with
`unknownNodeReference` carrying the connection's position, the failing
side and the unresolved name; the source side is checked first. -/
theorem c3_unknown_reference (s : WorkflowSpec) (pre : List ConnectionSpec)
    (c : ConnectionSpec) (post : List ConnectionSpec)
    (hsplit : s.connections = pre ++ c :: post)
    (hne : s.nodes ≠ []) (hnd : (s.nodes.map NodeSpec.name).Nodup)
    (hpre : ∀ c' ∈ pre, connValid s.nodes c') :
    (c.source ∉ s.nodes.map NodeSpec.name →
      compile s = Except.error
        (CompileError.unknownNodeReference pre.length RefSide.source c.source)) ∧
    (c.source ∈ s.nodes.map NodeSpec.name → c.target ∉ s.nodes.map NodeSpec.name →
      compile s = Except.error
        (CompileError.unknownNodeReference pre.length RefSide.target c.target)) := by
  constructor
  · intro h
    exact compile_error_at_conn s pre c post _ hsplit hne hnd hpre
      (compileConnection_error_source s.nodes pre.length c h)
  · intro hs h
    exact compile_error_at_conn s pre c post _ hsplit hne hnd hpre
      (compileConnection_error_target s.nodes pre.length c hs h)

/-- Concrete input for the C3 witness (spec §8 Example 3). -/
def c3ex : WorkflowSpec :=
  { name := "W"
  , nodes := [⟨"A", "x", [], none⟩]
  , connections := [⟨"A", "Z", none, none⟩] }

/-- C3 witness: Example 3 (node "A", connection "A" → undeclared "Z")
fails with `unknownNodeReference` at position 0, target side, name
"Z". -/
theorem c3_witness :
    c3ex.connections = [] ++ (⟨"A", "Z", none, none⟩ : ConnectionSpec) :: [] ∧
    compile c3ex = Except.error
      (CompileError.unknownNodeReference 0 RefSide.target "Z") :=
  ⟨rfl, (c3_unknown_reference c3ex [] ⟨"A", "Z", none, none⟩ [] rfl (by decide)
    (by decide) (by simp)).2 (by decide) (by decide)⟩

/-- C4: port handling.  First part: in a successful compilation, a
connection that omitted `sourceOutput` (resp. `targetInput`) yields a
CompiledConnection with 0 in that field, at the same position.  Second
part: a supplied negative index on a connection reached by the fail-fast
pass (nonempty nodes, distinct names, earlier connections valid, both
endpoints declared) is rejected with `invalidPortIndex` identifying the
connection's position and the offending field. -/
theorem c4_port_defaults (s : WorkflowSpec) :
    (∀ w, compile s = Except.ok w → ∀ (j : Nat) (c : ConnectionSpec), s.connections[j]? = some c →
      (c.sourceOutput = none →
        (w.connections[j]?).map CompiledConnection.sourceOutput = some 0) ∧
      (c.targetInput = none →
        (w.connections[j]?).map CompiledConnection.targetInput = some 0)) ∧
    (∀ pre (c : ConnectionSpec) post, s.connections = pre ++ c :: post → s.nodes ≠ [] →
      (s.nodes.map NodeSpec.name).Nodup → (∀ c' ∈ pre, connValid s.nodes c') →
      c.source ∈ s.nodes.map NodeSpec.name → c.target ∈ s.nodes.map NodeSpec.name →
      (∀ v : Int, c.sourceOutput = some v → v < 0 →
        compile s = Except.error
          (CompileError.invalidPortIndex pre.length PortField.sourceOutput)) ∧
      (portOk c.sourceOutput → ∀ v : Int, c.targetInput = some v → v < 0 →
        compile s = Except.error
          (CompileError.invalidPortIndex pre.length PortField.targetInput))) := by
  constructor
  · intro w hw j c hj
    have h := compile_ok_inv s w hw
    subst h
    simp only [List.getElem?_map, hj, Option.map_some']
    constructor
    · intro hso
      simp [connOut, portVal, hso]
    · intro hti
      simp [connOut, portVal, hti]
  · intro pre c post hsplit hne hnd hpre hs ht
    constructor
    · intro v hv hneg
      exact compile_error_at_conn s pre c post _ hsplit hne hnd hpre
        (compileConnection_error_sourcePort s.nodes pre.length c hs ht v hv hneg)
    · intro hso v hv hneg
      exact compile_error_at_conn s pre c post _ hsplit hne hnd hpre
        (compileConnection_error_targetPort s.nodes pre.length c hs ht hso v hv hneg)

/-- Concrete input for the C4 witness: one node, a self-connection with
both port indices omitted. -/
def c4ex : WorkflowSpec :=
  { name := "W"
  , nodes := [⟨"A", "x", [], none⟩]
  , connections := [⟨"A", "A", none, none⟩] }

/-- The compiled workflow `c4ex` maps to. -/
def c4out : CompiledWorkflow :=
  { name := "W"
  , nodes := [⟨"A", "x", [], 0, (0, 300)⟩]
  , connections := [⟨0, 0, 0, 0⟩] }

/-- Concrete input for the C4 witness, negative case: the supplied
`sourceOutput` index is -1. -/
def c4exNeg : WorkflowSpec :=
  { name := "W"
  , nodes := [⟨"A", "x", [], none⟩]
  , connections := [⟨"A", "A", some (-1), none⟩] }

/-- C4 witness: omitted ports compile to 0/0, and the negative supplied
index is rejected with `invalidPortIndex` at position 0, field
`sourceOutput`. -/
theorem c4_witness :
    compile c4ex = Except.ok c4out ∧
    (c4out.connections[0]?).map CompiledConnection.sourceOutput = some 0 ∧
    (c4out.connections[0]?).map CompiledConnection.targetInput = some 0 ∧
    compile c4exNeg = Except.error
      (CompileError.invalidPortIndex 0 PortField.sourceOutput) := by
  have hok : compile c4ex = Except.ok c4out := by rfl
  refine ⟨hok, ?_, ?_, ?_⟩
  · exact ((c4_port_defaults c4ex).1 c4out hok 0 ⟨"A", "A", none, none⟩ rfl).1 rfl
  · exact ((c4_port_defaults c4ex).1 c4out hok 0 ⟨"A", "A", none, none⟩ rfl).2 rfl
  · exact ((c4_port_defaults c4exNeg).2 [] ⟨"A", "A", some (-1), none⟩ [] rfl
      (by decide) (by decide) (by simp) (by decide) (by decide)).1 (-1) rfl (by decide)

/-- C5 counterexample: the claim's second half fails as stated: a spec
with two nodes (both named "A") and zero connections is rejected with
`duplicateNodeName`, not compiled successfully. -/
theorem c5_counterexample :
    compile { name := "W"
            , nodes := [⟨"A", "x", [], none⟩, ⟨"A", "y", [], none⟩]
            , connections := [] } =
      Except.error (CompileError.duplicateNodeName "A") := by rfl

/-- C5 (amended): every spec with zero nodes is rejected with
`emptyWorkflow`; a spec with at least one node, pairwise-distinct node
names and zero connections compiles successfully; and the
`create_workflow` handler treats an absent connections sequence as
empty. -/
theorem c5_empty_rejected_disconnected_ok :
    (∀ s : WorkflowSpec, s.nodes = [] →
      compile s = Except.error CompileError.emptyWorkflow) ∧
    (∀ s : WorkflowSpec, s.nodes ≠ [] → (s.nodes.map NodeSpec.name).Nodup →
      s.connections = [] →
      compile s = Except.ok { name := s.name, nodes := layoutNodes s.nodes
                            , connections := [] }) ∧
    (∀ args : CreateWorkflowArgs, args.connections = none →
      create_workflow args = compile { name := defaultedName args.name
                                     , nodes := args.nodes, connections := [] }) := by
  refine ⟨fun s h => compile_error_empty s h, ?_, ?_⟩
  · intro s hne hnd hconn
    have hv : ∀ c ∈ s.connections, connValid s.nodes c := by
      rw [hconn]
      simp
    have h := compile_ok_of_valid s hne hnd hv
    rw [hconn] at h
    simpa using h
  · intro args h
    simp [create_workflow, h]

/-- Concrete inputs for the C5 witness. -/
def c5ex : WorkflowSpec :=
  { name := "W", nodes := [⟨"A", "x", [], none⟩], connections := [] }

/-- Handler arguments with an absent connections sequence, for the C5
witness. -/
def c5args : CreateWorkflowArgs :=
  { name := some "W", nodes := [⟨"A", "x", [], none⟩], connections := none }

/-- C5 witness: the empty spec is rejected, the one-node zero-connection
spec compiles, and the handler with absent connections equals the
handler on the empty connection list. -/
theorem c5_witness :
    compile { name := "W", nodes := [], connections := [] } =
      Except.error CompileError.emptyWorkflow ∧
    compile c5ex = Except.ok { name := c5ex.name, nodes := layoutNodes c5ex.nodes
                             , connections := [] } ∧
    create_workflow c5args = compile { name := defaultedName c5args.name
                                     , nodes := c5args.nodes, connections := [] } :=
  ⟨c5_empty_rejected_disconnected_ok.1 _ rfl,
    c5_empty_rejected_disconnected_ok.2.1 c5ex (by decide) (by decide) rfl,
    c5_empty_rejected_disconnected_ok.2.2 c5args rfl⟩

/-- C6: self-loops are not a rejection reason: a spec with nonempty
nodes, distinct names and valid connections compiles successfully even
when one of its connections has source equal to target. -/
theorem c6_self_loop_allowed (s : WorkflowSpec) (hne : s.nodes ≠ [])
    (hnd : (s.nodes.map NodeSpec.name).Nodup)
    (hv : ∀ c ∈ s.connections, connValid s.nodes c)
    (hself : ∃ c ∈ s.connections, c.source = c.target) :
    compile s = Except.ok { name := s.name, nodes := layoutNodes s.nodes
                          , connections := s.connections.map (connOut s.nodes) } :=
  compile_ok_of_valid s hne hnd hv

/-- Concrete input for the C6 witness (spec §8 Example 5). -/
def c6ex : WorkflowSpec :=
  { name := "W"
  , nodes := [⟨"A", "x", [], none⟩]
  , connections := [⟨"A", "A", none, none⟩] }

/-- C6 witness: Example 5 (single node "A" with a connection from "A" to
"A") compiles successfully. -/
theorem c6_witness :
    (∃ c ∈ c6ex.connections, c.source = c.target) ∧
    compile c6ex = Except.ok { name := c6ex.name, nodes := layoutNodes c6ex.nodes
                             , connections := c6ex.connections.map (connOut c6ex.nodes) } :=
  ⟨by decide, c6_self_loop_allowed c6ex (by decide) (by decide) (by decide) (by decide)⟩

/-- C7: compile is deterministic: the same input yields the same result,
and the result's structure is a function of input order alone: on
success the node at index `j` carries identifier `j` and its input
position, or the fixed stride-based default position for index `j`; the
connections are the pointwise image of the input connections. -/
theorem c7_deterministic (s : WorkflowSpec) :
    compile s = compile s ∧
    ∀ w, compile s = Except.ok w →
      w.name = s.name ∧
      w.nodes.length = s.nodes.length ∧
      (∀ j : Nat, (w.nodes[j]?).map ResolvedNode.id = (s.nodes[j]?).map (fun _ => j)) ∧
      (∀ j : Nat, (w.nodes[j]?).map ResolvedNode.position =
        (s.nodes[j]?).map (fun n => n.position.getD (defaultPosition j))) ∧
      w.connections = s.connections.map (connOut s.nodes) := by
  refine ⟨rfl, ?_⟩
  intro w hw
  have h := compile_ok_inv s w hw
  subst h
  refine ⟨rfl, layoutNodesFrom_length 0 s.nodes, ?_, ?_, rfl⟩
  · intro j
    show ((layoutNodesFrom 0 s.nodes)[j]?).map ResolvedNode.id = _
    rw [layoutNodesFrom_getElem? 0 s.nodes j]
    cases s.nodes[j]? <;> simp
  · intro j
    show ((layoutNodesFrom 0 s.nodes)[j]?).map ResolvedNode.position = _
    rw [layoutNodesFrom_getElem? 0 s.nodes j]
    cases s.nodes[j]? <;> simp

/-- Concrete input for the C7 witness. -/
def c7ex : WorkflowSpec :=
  { name := "W"
  , nodes := [⟨"A", "x", [], none⟩, ⟨"B", "y", [], some (7, 8)⟩]
  , connections := [⟨"A", "B", none, none⟩] }

/-- The compiled workflow `c7ex` maps to: identifiers 0 and 1, the first
node at the default position for index 0, the second keeping its
supplied position. -/
def c7out : CompiledWorkflow :=
  { name := "W"
  , nodes := [⟨"A", "x", [], 0, (0, 300)⟩, ⟨"B", "y", [], 1, (7, 8)⟩]
  , connections := [⟨0, 1, 0, 0⟩] }

/-- C7 witness: the determinism theorem applied to a concrete two-node
spec, read off at index 1. -/
theorem c7_witness :
    compile c7ex = Except.ok c7out ∧
    c7out.name = c7ex.name ∧
    (c7out.nodes[1]?).map ResolvedNode.id = (c7ex.nodes[1]?).map (fun _ => 1) ∧
    (c7out.nodes[1]?).map ResolvedNode.position =
      (c7ex.nodes[1]?).map (fun n => n.position.getD (defaultPosition 1)) := by
  have hok : compile c7ex = Except.ok c7out := by rfl
  have h := (c7_deterministic c7ex).2 c7out hok
  exact ⟨hok, h.1, h.2.2.1 1, h.2.2.2.1 1⟩

/-- C8: compile, modelled as a pure function of its input, has no effect
beyond its return value; in particular a failed compilation yields no
compiled workflow at all: the result's success projection is empty. -/
theorem c8_failure_yields_no_workflow (s : WorkflowSpec) (e : CompileError)
    (h : compile s = Except.error e) : (compile s).toOption = none := by
  simp [h, Except.toOption]

/-- C8 witness: the empty spec fails with `emptyWorkflow` and carries no
compiled workflow alongside the error. -/
theorem c8_witness :
    compile { name := "W", nodes := [], connections := [] } =
      Except.error CompileError.emptyWorkflow ∧
    (compile { name := "W", nodes := [], connections := [] }).toOption = none :=
  ⟨by rfl, c8_failure_yields_no_workflow _ CompileError.emptyWorkflow (by rfl)⟩

/-- C9: when the `create_workflow` arguments carry no name, the handler
substitutes "New Workflow" before compiling, so a successfully compiled
workflow carries that name. -/
theorem c9_default_name (args : CreateWorkflowArgs) (h : args.name = none)
    (w : CompiledWorkflow) (hw : create_workflow args = Except.ok w) :
    w.name = "New Workflow" := by
  unfold create_workflow at hw
  have hinv := compile_ok_inv _ w hw
  subst hinv
  simp [h, defaultedName]

/-- Concrete handler arguments for the C9 witness: no name supplied. -/
def c9args : CreateWorkflowArgs :=
  { name := none, nodes := [⟨"A", "x", [], none⟩], connections := none }

/-- The compiled workflow `c9args` maps to. -/
def c9out : CompiledWorkflow :=
  { name := "New Workflow"
  , nodes := [⟨"A", "x", [], 0, (0, 300)⟩]
  , connections := [] }

/-- C9 witness: the handler call without a name compiles to a workflow
named "New Workflow". -/
theorem c9_witness :
    c9args.name = none ∧ create_workflow c9args = Except.ok c9out ∧
    c9out.name = "New Workflow" := by
  have hok : create_workflow c9args = Except.ok c9out := by rfl
  exact ⟨rfl, hok, c9_default_name c9args rfl c9out hok⟩

/-- C10: the `/execution-stats` resource computes `total` as the list
length, `succeeded` as the count of finished executions whose mode is
not "error", `failed` as the count whose mode is "error", `waiting` as
the count of unfinished executions; an unfinished execution in mode
"error" is counted in both `failed` and `waiting`, so the three counts
need not sum to `total`; and a failed fetch yields all-zero statistics
with an error message instead of a propagated failure. -/
theorem c10_execution_stats :
    (∀ l : List ExecutionRecord, readExecutionStats (Except.ok l) =
      { total := l.length
      , succeeded := l.countP (fun e => e.finished && e.mode ≠ "error")
      , failed := l.countP (fun e => e.mode = "error")
      , waiting := l.countP (fun e => !e.finished)
      , errMsg := none }) ∧
    (readExecutionStats (Except.ok [⟨false, "error"⟩]) =
      { total := 1, succeeded := 0, failed := 1, waiting := 1, errMsg := none }) ∧
    ((readExecutionStats (Except.ok [⟨false, "error"⟩])).succeeded +
      (readExecutionStats (Except.ok [⟨false, "error"⟩])).failed +
      (readExecutionStats (Except.ok [⟨false, "error"⟩])).waiting ≠
      (readExecutionStats (Except.ok [⟨false, "error"⟩])).total) ∧
    (∀ msg : String, readExecutionStats (Except.error msg) =
      { total := 0, succeeded := 0, failed := 0, waiting := 0
      , errMsg := some "Failed to retrieve execution statistics" }) := by
  refine ⟨?_, by rfl, by decide, fun msg => rfl⟩
  intro l
  simp [readExecutionStats, computeExecutionStats, List.countP_eq_length_filter]
